import Mathlib

/-!
Verification of the flow.js task-sequencing engine (repository Munawwar/flowjs).

The development shallowly embeds the two source components:

* `SerialManager` (src/flow.js lines 50-147): the sequencer owning the task
  list, the current index, the pending error/result buffers and the
  repeat/tolerance configuration.
* `ControlHelper` (src/flow.js lines 155-287): the per-task fan-out
  controller wrapping the decrementing counter.

JavaScript values that flow through the engine (errors, results, baggage,
options) are modelled by the inductive type `JSVal`; machine details that the
engine observes (truthiness, `typeof x === 'number'`, `typeof x === 'boolean'`,
strict inequality with `undefined`, sparse array writes) are modelled
explicitly.

Two renderings of the controller are given, both literal translations of the
same source lines:

* `ControlHelper.tickEv` / `ControlHelper.nextEv` return the call
  `this.manager.next(error, result, this.baggage)` as an explicit advance
  event `(error, result, baggage)` instead of interpreting it.  These are used
  for claims about arbitrary interleavings of completion callbacks, where only
  the counter discipline and the moment of advance matter.
* `ControlHelper.tickR` / `ControlHelper.nextR` take the manager's `next` as
  a function argument `recur` and call it, giving the full closed-world
  interpreter `SerialManager.run` (fuel-indexed, since tasks re-enter the
  sequencer synchronously).
-/

namespace Flowjs

/-- JavaScript values observed by the engine.  `ctrlObj` stands for a
`ControlHelper` instance flowing through the data channel (it is truthy and
has no `count`/`repeat`/`tolerance` properties, which is all the engine ever
observes about it). -/
inductive JSVal where
  | null
  | undefined
  | bool (b : Bool)
  | num (n : Int)
  | str (s : String)
  | arr (xs : List JSVal)
  | ctrlObj
deriving Repr

mutual

/-- Structural equality test for `JSVal` (the derived handler does not support
the nested occurrence under `List`). -/
def JSVal.beq : JSVal → JSVal → Bool
  | .null, .null => true
  | .undefined, .undefined => true
  | .bool a, .bool b => a == b
  | .num a, .num b => a == b
  | .str a, .str b => a == b
  | .arr a, .arr b => JSVal.beqList a b
  | .ctrlObj, .ctrlObj => true
  | _, _ => false

/-- Pointwise `JSVal.beq` on lists. -/
def JSVal.beqList : List JSVal → List JSVal → Bool
  | [], [] => true
  | x :: xs, y :: ys => JSVal.beq x y && JSVal.beqList xs ys
  | _, _ => false

end

mutual

/-- `JSVal.beq` decides equality. -/
def JSVal.beq_iff : ∀ a b : JSVal, JSVal.beq a b = true ↔ a = b
  | .null, b => by cases b <;> simp [JSVal.beq]
  | .undefined, b => by cases b <;> simp [JSVal.beq]
  | .bool x, b => by cases b <;> simp [JSVal.beq]
  | .num x, b => by cases b <;> simp [JSVal.beq]
  | .str x, b => by cases b <;> simp [JSVal.beq]
  | .arr xs, b => by
      cases b <;> simp [JSVal.beq]
      exact JSVal.beqList_iff xs _
  | .ctrlObj, b => by cases b <;> simp [JSVal.beq]

/-- `JSVal.beqList` decides equality of lists. -/
def JSVal.beqList_iff : ∀ a b : List JSVal, JSVal.beqList a b = true ↔ a = b
  | [], b => by cases b <;> simp [JSVal.beqList]
  | x :: xs, b => by
      cases b with
      | nil => simp [JSVal.beqList]
      | cons y ys =>
          simp only [JSVal.beqList, Bool.and_eq_true, List.cons.injEq]
          exact and_congr (JSVal.beq_iff x y) (JSVal.beqList_iff xs ys)

end

instance : DecidableEq JSVal := fun a b => decidable_of_iff _ (JSVal.beq_iff a b)

/-- JavaScript truthiness for the values of `JSVal`. -/
def truthy : JSVal → Bool
  | .null => false
  | .undefined => false
  | .bool b => b
  | .num n => decide (n ≠ 0)
  | .str s => decide (s ≠ "")
  | .arr _ => true
  | .ctrlObj => true

/-- The test `a !== null && a !== undefined` used by the source `compact`
(negated here: true when the entry is empty). -/
def isEmptyVal : JSVal → Bool
  | .null => true
  | .undefined => true
  | _ => false

/-- Source function `compact` (src/flow.js lines 303-312): if all items of the
array are empty return `null`, else return the original unmodified array. -/
def compact (arr : List JSVal) : JSVal :=
  if arr.all isEmptyVal then .null else .arr arr

/-- JavaScript indexed array write `l[i] = v`: writes in place when `i` is in
range, extends the array with holes (read back as `undefined`) when `i` is
beyond the length, and leaves the array elements untouched for a negative `i`
(which in JavaScript becomes a plain property invisible to the element
reads the engine performs). -/
def jsSetAt (l : List JSVal) (i : Int) (v : JSVal) : List JSVal :=
  if 0 ≤ i then
    let n := i.toNat
    if n < l.length then l.set n v
    else (l ++ List.replicate (n - l.length) .undefined) ++ [v]
  else l

/-- JavaScript indexed array read `l[i]` for a natural index: `undefined`
beyond the length. -/
def jsIdx (l : List JSVal) (i : Nat) : JSVal := l.getD i .undefined

/-- JavaScript read of property `0`, as performed by `errs[0]` in the second
source variant: first element of an array, first character of a string,
`undefined` on other non-nullish values. -/
def jsGet0 : JSVal → JSVal
  | .arr l => l.getD 0 .undefined
  | .str s =>
      match s.data with
      | [] => .undefined
      | ch :: _ => .str (String.mk [ch])
  | _ => .undefined

/-- One operation a task-author function can perform on its controller:
`set(count, repeat, tolerance)` with a numeric count, `inc(v)`, the
two-argument and three-argument (indexed) forms of `tick`, and `next` with or
without arguments. -/
inductive Cmd where
  | cset (n : Int) (rep tol : JSVal)
  | cinc (v : JSVal)
  | ctick (e r : JSVal)
  | ctickIdx (i : Int) (e r : JSVal)
  | cnext (e r : JSVal)
  | cnextU
deriving DecidableEq, Repr

/-- A task held by a `SerialManager`.  `user` is an arbitrary task-author
function, given as the list of controller operations its body performs (one
list for the first invocation, one for re-invocations when the controller's
`repeatCount` is positive).  `flowSub` is the function returned by `flow(...)`
used as a nested task of a parent sequence (src/flow.js lines 25-43).
`finalCb` is a completion callback passed to `execute` (observed by logging
its arguments).  `pipeCb` is the completion closure `flow` registers on the
nested manager (src/flow.js lines 35-42). -/
inductive Task where
  | user (first onRep : List Cmd)
  | flowSub (subs : List Task)
  | finalCb
  | pipeCb

/-- State of a `SerialManager` instance (src/flow.js lines 50-74).
`delivered` records the arguments with which the `pipeCb` completion closure
performed its `setBaggage`/`next` calls on the parent controller (the closure
is invoked with the argument list `[controller, errs, res, baggage]`, so its
parameters `errors, results, baggage` are bound to the controller instance,
`errs` and `res` respectively). -/
structure Mgr where
  callbacks : List Task
  currentFunc : Int
  repeatNext : Bool
  repeatCount : Int
  errors : List JSVal
  results : List JSVal
  tolerance : Bool
  lastArgs : List JSVal
  delivered : List (JSVal × JSVal × JSVal)

/-- State of a `ControlHelper` instance (src/flow.js lines 155-162, plus the
`repeatCount` the sequencer copies onto it at line 133). -/
structure Ctrl where
  count : Int
  tolerance : Bool
  baggage : JSVal
  repeatCount : Int
deriving DecidableEq, Repr

/-- Source method `SerialManager.set` (src/flow.js lines 83-90), with the
`options` object given by its two observed fields. -/
def SerialManager.set (tol rep : JSVal) (m : Mgr) : Mgr :=
  let m1 := if tol ≠ .undefined then { m with tolerance := truthy tol } else m
  match rep with
  | .bool b => { m1 with repeatNext := b }
  | _ => m1

/-- Source method `SerialManager.store` (src/flow.js lines 94-102). -/
def SerialManager.store (e r idx : JSVal) (m : Mgr) : Mgr :=
  match idx with
  | .num i => { m with results := jsSetAt m.results i r, errors := jsSetAt m.errors i e }
  | _ => { m with results := m.results ++ [r], errors := m.errors ++ [e] }

/-- Lines 107-110 of `SerialManager.next`: record the immediate arguments when
either is distinct from `undefined`. -/
def SerialManager.pushArgs (e r : JSVal) (m : Mgr) : Mgr :=
  if e ≠ .undefined ∨ r ≠ .undefined then
    { m with errors := m.errors ++ [e], results := m.results ++ [r] }
  else m

/-- Lines 106-128 of `SerialManager.next`: record the immediate arguments,
take the repeat-or-advance decision, and produce the post-decision state
together with the outgoing `(errs, res)` payload. -/
def SerialManager.nextStep (e r : JSVal) (m : Mgr) : Mgr × JSVal × JSVal :=
  let m1 := SerialManager.pushArgs e r m
  let errs := compact m1.errors
  if m1.repeatNext && (m1.tolerance || (!m1.tolerance && !truthy errs)) then
    ({ m1 with repeatCount := m1.repeatCount + 1, repeatNext := false },
     jsIdx m1.lastArgs 0, jsIdx m1.lastArgs 1)
  else
    ({ m1 with currentFunc := m1.currentFunc + 1, errors := [], results := [],
               repeatCount := 0, repeatNext := false },
     errs, JSVal.arr m1.results)

/-- The truthiness test `this.callbacks[this.currentFunc]` of line 130: a
task is present (functions are truthy) or the index is out of range
(`undefined`, falsy). -/
def taskAt (cbs : List Task) (i : Int) : Option Task :=
  if 0 ≤ i then cbs.get? i.toNat else none

/-- Source method `ControlHelper.inc` (src/flow.js lines 220-225). -/
def ControlHelper.inc (v : JSVal) (c : Ctrl) : Ctrl :=
  let n : Int :=
    match v with
    | .num k => if k ≤ 0 then 1 else k
    | _ => 1
  { c with count := c.count + n }

/-- Source method `ControlHelper.set` (src/flow.js lines 176-194), positional
form.  A non-numeric `count` becomes the `config` object itself; reading
`config.count` on `null`/`undefined` throws a `TypeError` (`none`), while on
any other value both observed properties read as `undefined`, so nothing
changes.  Note line 191: `delete config.tolerance` strips the tolerance before
`this.manager.set(config)`, so the manager's `set` always sees
`options.tolerance === undefined`. -/
def ControlHelper.set (count rep tol : JSVal) (c : Ctrl) (m : Mgr) :
    Option (Ctrl × Mgr) :=
  match count with
  | .num n =>
      let c1 := if 0 < n then { c with count := n } else c
      let c2 := if tol ≠ .undefined then { c1 with tolerance := truthy tol } else c1
      some (c2, SerialManager.set .undefined rep m)
  | .null => none
  | .undefined => none
  | _ => some (c, SerialManager.set .undefined .undefined m)

/-- An advance request, i.e. one call `this.manager.next(error, result,
baggage)` issued by a controller. -/
abbrev Adv := JSVal × JSVal × JSVal

/-- Source method `ControlHelper.next` (src/flow.js lines 253-261), with the
call `this.manager.next(error, result, this.baggage)` returned as an advance
event. -/
def ControlHelper.nextEv (e r : JSVal) (c : Ctrl) (m : Mgr) :
    Ctrl × Mgr × List Adv :=
  let c1 := if !c.tolerance && truthy e then { c with count := 0 } else c
  if c1.count = 0 then (c1, m, [(e, r, c1.baggage)]) else (c1, m, [])

/-- Source method `ControlHelper.tick` (src/flow.js lines 233-248), 3-argument
form, with the advance returned as an event (`tick` ends by calling
`this.next()`, i.e. `next(undefined, undefined)`). -/
def ControlHelper.tickEv (idx e r : JSVal) (c : Ctrl) (m : Mgr) :
    Ctrl × Mgr × List Adv :=
  if 0 < c.count then
    let c1 := { c with count := c.count - 1 }
    let m1 := SerialManager.store e r idx m
    let c2 := if !c1.tolerance && truthy e then { c1 with count := 0 } else c1
    ControlHelper.nextEv .undefined .undefined c2 m1
  else (c, m, [])

/-- `ControlHelper.tick` called with two arguments (src/flow.js lines
234-237): `result` becomes the second argument, `error` the first, and `index`
keeps the value of the first argument. -/
def ControlHelper.tick2Ev (e r : JSVal) (c : Ctrl) (m : Mgr) :
    Ctrl × Mgr × List Adv :=
  ControlHelper.tickEv e e r c m

/-- Events observed while running a sequence: a task invocation (with the
payload it was applied to and the `repeatCount` the sequencer copied onto its
controller), the invocation of the completion callback registered through
`execute`, and the invocation of the completion closure `flow` registers on a
nested sequence.  Every callback is applied to the argument list
`[controller, errs, res, baggage]` (src/flow.js line 135); `invoke` and `done`
record the three data positions of that list. -/
inductive Ev where
  | invoke (i : Nat) (errs res b : JSVal) (rc : Int)
  | done (errs res b : JSVal)
  | pipe (e r bg : JSVal)
deriving DecidableEq, Repr

/-- Source method `ControlHelper.next` (src/flow.js lines 253-261), with
`this.manager.next(error, result, this.baggage)` interpreted by the supplied
`recur`. -/
def ControlHelper.nextR (recur : JSVal → JSVal → JSVal → Mgr → Mgr × List Ev)
    (e r : JSVal) (c : Ctrl) (m : Mgr) : Ctrl × Mgr × List Ev :=
  let c1 := if !c.tolerance && truthy e then { c with count := 0 } else c
  if c1.count = 0 then
    let s := recur e r c1.baggage m
    (c1, s.1, s.2)
  else (c1, m, [])

/-- Source method `ControlHelper.tick` (src/flow.js lines 233-248), 3-argument
form, with the manager interpreted by `recur`. -/
def ControlHelper.tickR (recur : JSVal → JSVal → JSVal → Mgr → Mgr × List Ev)
    (idx e r : JSVal) (c : Ctrl) (m : Mgr) : Ctrl × Mgr × List Ev :=
  if 0 < c.count then
    let c1 := { c with count := c.count - 1 }
    let m1 := SerialManager.store e r idx m
    let c2 := if !c1.tolerance && truthy e then { c1 with count := 0 } else c1
    ControlHelper.nextR recur .undefined .undefined c2 m1
  else (c, m, [])

/-- Run the body of a task-author function: the sequence of operations it
performs on its controller, threading the controller and manager state. -/
def runCmds (recur : JSVal → JSVal → JSVal → Mgr → Mgr × List Ev) :
    List Cmd → Ctrl → Mgr → Ctrl × Mgr × List Ev
  | [], c, m => (c, m, [])
  | cmd :: cs, c, m =>
    let s :=
      match cmd with
      | .cset n rep tol =>
          match ControlHelper.set (.num n) rep tol c m with
          | some p => (p.1, p.2, ([] : List Ev))
          | none => (c, m, [])
      | .cinc v => (ControlHelper.inc v c, m, [])
      | .ctick e r => ControlHelper.tickR recur e e r c m
      | .ctickIdx i e r => ControlHelper.tickR recur (.num i) e r c m
      | .cnext e r => ControlHelper.nextR recur e r c m
      | .cnextU => ControlHelper.nextR recur .undefined .undefined c m
    let s2 := runCmds recur cs s.1 s.2.1
    (s2.1, s2.2.1, s.2.2 ++ s2.2.2)

/-- The fresh state built by the `SerialManager` constructor (src/flow.js
lines 50-59) before it applies the options. -/
def SerialManager.init (cbs : List Task) : Mgr :=
  { callbacks := cbs, currentFunc := -1, repeatNext := false, repeatCount := 0,
    errors := [], results := [], tolerance := false, lastArgs := [],
    delivered := [] }

/-- The `SerialManager` constructor: fresh state followed by `this.set(options)`
with the two observed option fields. -/
def SerialManager.mk0 (cbs : List Task) (tol rep : JSVal) : Mgr :=
  SerialManager.set tol rep (SerialManager.init cbs)

/-- One call of `SerialManager.next` (src/flow.js lines 106-137): the
record/decide part (`SerialManager.nextStep`, lines 106-128) followed by the
dispatch part (lines 130-136).  `recur` interprets the nested `manager.next`
calls made synchronously by the dispatched task.

A `user` task runs its command list (the first list on a fresh invocation,
the second when `repeatCount` is positive).  `finalCb` is an observing
completion callback.  `flowSub` follows src/flow.js lines 25-43: it builds a
fresh nested `SerialManager` over its task list with empty options, executes
it seeded with the payload this task received, and the registered completion
closure (`pipeCb`) records its `[controller, errs, res, baggage]` invocation;
afterwards each recorded invocation performs
`parallelMgr.setBaggage(baggage-param); parallelMgr.next(errors-param,
results-param)` on this task's controller, where by the positional binding
the baggage parameter is `res`, the errors parameter is the nested
controller instance and the results parameter is `errs`. -/
def SerialManager.nextBody
    (recur : JSVal → JSVal → JSVal → Mgr → Mgr × List Ev)
    (e r b : JSVal) (m : Mgr) : Mgr × List Ev :=
  let d := SerialManager.nextStep e r m
  let m2 := d.1
  let errs := d.2.1
  let res := d.2.2
  match taskAt m2.callbacks m2.currentFunc with
  | none => (m2, [])
  | some t =>
    let m3 := { m2 with lastArgs := [errs, res] }
    let c : Ctrl := ⟨0, m3.tolerance, .null, m3.repeatCount⟩
    match t with
    | .user first onRep =>
        let body := if c.repeatCount == 0 then first else onRep
        let s := runCmds recur body c m3
        (s.2.1, Ev.invoke m2.currentFunc.toNat errs res b m3.repeatCount :: s.2.2)
    | .finalCb =>
        (m3, [Ev.done errs res b])
    | .pipeCb =>
        ({ m3 with delivered := m3.delivered ++ [(JSVal.ctrlObj, errs, res)] },
         [Ev.pipe JSVal.ctrlObj errs res])
    | .flowSub subs =>
        let sub0 := SerialManager.mk0 (subs ++ [Task.pipeCb]) .undefined .undefined
        let s1 := recur errs res b sub0
        let s2 := s1.1.delivered.foldl
          (fun acc dv =>
            let c1 := { acc.1 with baggage := dv.2.2 }
            let s3 := ControlHelper.nextR recur dv.1 dv.2.1 c1 acc.2.1
            (s3.1, s3.2.1, acc.2.2 ++ s3.2.2))
          (c, m3, ([] : List Ev))
        (s2.2.1, Ev.invoke m2.currentFunc.toNat errs res b m3.repeatCount ::
                   (s1.2 ++ s2.2.2))

/-- The fuel-indexed interpreter of `SerialManager.next`: every nested
synchronous `manager.next` call consumes one unit of fuel. -/
def SerialManager.run : Nat → JSVal → JSVal → JSVal → Mgr → Mgr × List Ev
  | 0, _, _, _, m => (m, [])
  | fuel + 1, e, r, b, m => SerialManager.nextBody (SerialManager.run fuel) e r b m

/-- Source method `SerialManager.execute` (src/flow.js lines 143-146) on a
freshly constructed manager: append the completion callback as a final task
and call `next(err, result, baggage)`. -/
def SerialManager.executeRun (fuel : Nat) (cbs : List Task) (tol rep : JSVal)
    (e r b : JSVal) : Mgr × List Ev :=
  SerialManager.run fuel e r b (SerialManager.mk0 (cbs ++ [Task.finalCb]) tol rep)

/-- The delivery computation of `SerialManager.next` in the second source
variant (src/unnamed/part_000 lines 98-141).  Lines 98-120 coincide with
`SerialManager.nextStep`; then, when a task is present, the variant stores
`lastArgs`, unwraps the outgoing error to `errs[0]` when tolerance is off and
both `errs` and `errs[0]` are truthy (lines 124-126), builds the argument
list `[errs, res, mgr]` and drops the first two entries when the first task
is invoked with a nullish error and an undefined `result` parameter (lines
130-138).  Invoking the callback is represented by returning the argument
list it would be applied to. -/
def SerialManager.nextV2 (e r : JSVal) (m : Mgr) : Mgr × Option (List JSVal) :=
  let d := SerialManager.nextStep e r m
  let m2 := d.1
  let errs := d.2.1
  let res := d.2.2
  match taskAt m2.callbacks m2.currentFunc with
  | none => (m2, none)
  | some _ =>
    let m3 := { m2 with lastArgs := [errs, res] }
    let errs2 :=
      if !m3.tolerance && truthy errs && truthy (jsGet0 errs) then jsGet0 errs
      else errs
    let args :=
      if m2.currentFunc = 0 ∧ (errs2 = .undefined ∨ errs2 = .null) ∧ r = .undefined then
        [JSVal.ctrlObj]
      else [errs2, res, JSVal.ctrlObj]
    (m3, some args)

/-- One operation a task author can perform on a controller, for stating
properties over arbitrary operation sequences. -/
inductive CtrlOp where
  | oset (count rep tol : JSVal)
  | oinc (v : JSVal)
  | otick (e r : JSVal)
  | otickIdx (i e r : JSVal)
  | onext (e r : JSVal)
deriving Repr

/-- Run one controller operation (event-level semantics).  A `TypeError`
thrown by `set` on a nullish config aborts the call with the counter
untouched. -/
def runOp (op : CtrlOp) (c : Ctrl) (m : Mgr) : Ctrl × Mgr × List Adv :=
  match op with
  | .oset cnt rep tol =>
      match ControlHelper.set cnt rep tol c m with
      | some p => (p.1, p.2, [])
      | none => (c, m, [])
  | .oinc v => (ControlHelper.inc v c, m, [])
  | .otick e r => ControlHelper.tick2Ev e r c m
  | .otickIdx i e r => ControlHelper.tickEv i e r c m
  | .onext e r => ControlHelper.nextEv e r c m

/-- Run a sequence of controller operations, collecting the advance events in
order. -/
def runOps : List CtrlOp → Ctrl → Mgr → Ctrl × Mgr × List Adv
  | [], c, m => (c, m, [])
  | op :: ops, c, m =>
      let s := runOp op c m
      let s2 := runOps ops s.1 s.2.1
      (s2.1, s2.2.1, s.2.2 ++ s2.2.2)

/-- Run a sequence of two-argument `tick` calls (one completion signal per
sub-operation), collecting the advance events in order. -/
def runTicks : List (JSVal × JSVal) → Ctrl → Mgr → Ctrl × Mgr × List Adv
  | [], c, m => (c, m, [])
  | (e, r) :: ps, c, m =>
      let s := ControlHelper.tick2Ev e r c m
      let s2 := runTicks ps s.1 s.2.1
      (s2.1, s2.2.1, s.2.2 ++ s2.2.2)

/-- A task that immediately calls the controller's no-fan-out advance with the
given error/result and arms no counter. -/
def mkNextTask (p : JSVal × JSVal) : Task := .user [.cnext p.1 p.2] []

/-- The payload a single advance call `next(e, r)` produces on clean buffers:
nothing is recorded when both arguments are `undefined`, otherwise the pair is
recorded and the error buffer compacted. -/
def deliveredOf (e r : JSVal) : JSVal × JSVal :=
  if e = .undefined ∧ r = .undefined then (.null, .arr [])
  else (compact [e], .arr [r])

/-- Specification trace of a straight-line run: task `i` is invoked with the
payload aggregated from the previous advance arguments `(e, r)`, each
remaining pair is the advance call of the task just invoked, and the last
advance lands on the completion callback. -/
def c1log : Nat → JSVal → JSVal → JSVal → List (JSVal × JSVal) → List Ev
  | _, e, r, b, [] => [Ev.done (deliveredOf e r).1 (deliveredOf e r).2 b]
  | i, e, r, b, q :: rest =>
      Ev.invoke i (deliveredOf e r).1 (deliveredOf e r).2 b 0 ::
        c1log (i + 1) q.1 q.2 .null rest

/-- A task arming a fan-out of 2 with `repeat = true`, completing it with two
error-free ticks; on re-invocation it advances normally. -/
def c4task : Task :=
  .user [.cset 2 (.bool true) .undefined, .ctick .null (.str "a"), .ctick .null (.str "b")]
        [.cnext .null (.str "c")]

/-- Full run of the repeat example. -/
def c4run : Mgr × List Ev :=
  SerialManager.executeRun 3 [c4task] .undefined .undefined .null (.str "seed") .undefined

/-- A task arming a fan-out of 2 with `repeat = true` and completing it with
two indexed error-free ticks; on re-invocation it advances normally with one
more recorded pair. -/
def c10task : Task :=
  .user [.cset 2 (.bool true) .undefined, .ctickIdx 1 .null (.str "y"),
         .ctickIdx 0 .null (.str "x")]
        [.cnext .null (.str "z")]

/-- Full run of the buffer-retention example: the entries recorded in the
round that triggered the repeat must survive into the payload of the eventual
advance. -/
def c10run : Mgr × List Ev :=
  SerialManager.executeRun 3 [c10task] .undefined .undefined .null (.str "seed") .undefined

/-- A task calling the no-fan-out advance twice: after the first call its
controller is stale (the sequencer has moved on to the next task). -/
def c6taskA : Task := .user [.cnext .null (.str "x"), .cnext .null (.str "y")] []

/-- A task that performs no controller operation at all. -/
def c6taskB : Task := .user [] []

/-- Full run of the stale-controller example. -/
def c6run : Mgr × List Ev :=
  SerialManager.executeRun 2 [c6taskA, c6taskB] .undefined .undefined .null (.str "seed") .undefined

/-- Full run of a parent sequence whose single task is a built sequence
(nested `flow`), the nested sequence finishing with `next(null, "x")`. -/
def c9run : Mgr × List Ev :=
  SerialManager.executeRun 4 [Task.flowSub [Task.user [.cnext .null (.str "x")] []]]
    .undefined .undefined .null (.str "seed") .undefined

/-- Manager state while the first of two user tasks (plus the completion
callback) is executing under intolerant mode, its buffers clean. -/
def c5mgr : Mgr :=
  { callbacks := [Task.user [] [], Task.user [] [], Task.finalCb], currentFunc := 0,
    repeatNext := false, repeatCount := 0, errors := [], results := [],
    tolerance := false, lastArgs := [.null, .arr [.str "seed"]], delivered := [] }

/-- The first task's controller after `set(2)`. -/
def c5ctrl : Ctrl := ⟨2, false, .null, 0⟩

/-- The two completion ticks of the claim's example, `(null, "r1")` then
`(err, "r2")`, run on the armed controller. -/
def c5ticks : Ctrl × Mgr × List Adv :=
  runTicks [(.null, .str "r1"), (.str "err", .str "r2")] c5ctrl c5mgr

/-- The argument list the second-variant sequencer delivers to the next task
after those two ticks (the short-circuiting tick advances with
`next(undefined, undefined)`). -/
def c5args : Option (List JSVal) :=
  (SerialManager.nextV2 .undefined .undefined c5ticks.2.1).2

/-- An empty fresh manager, used as a concrete sequencer state. -/
def mgr0 : Mgr := SerialManager.init []

/-- A concrete exhausted controller under intolerant mode. -/
def ctrl0 : Ctrl := ⟨0, false, .null, 0⟩

/-- A concrete armed controller under intolerant mode. -/
def ctrl2 : Ctrl := ⟨2, false, .null, 0⟩

/-- The controller's `next` keeps the counter non-negative. -/
theorem nextEv_count_nonneg (e r : JSVal) (c : Ctrl) (m : Mgr)
    (h : 0 ≤ c.count) : 0 ≤ (ControlHelper.nextEv e r c m).1.count := by
  simp only [ControlHelper.nextEv]
  by_cases hsc : (!c.tolerance && truthy e) = true
  · rw [if_pos hsc]
    split <;> simp
  · rw [if_neg hsc]
    split <;> simpa using h

/-- The controller's `tick` keeps the counter non-negative. -/
theorem tickEv_count_nonneg (i e r : JSVal) (c : Ctrl) (m : Mgr)
    (h : 0 ≤ c.count) : 0 ≤ (ControlHelper.tickEv i e r c m).1.count := by
  simp only [ControlHelper.tickEv]
  by_cases hp : 0 < c.count
  · rw [if_pos hp]
    apply nextEv_count_nonneg
    by_cases hsc : (!c.tolerance && truthy e) = true
    · rw [if_pos hsc]
    · rw [if_neg hsc]
      simp
      omega
  · rw [if_neg hp]
    exact h

/-- A single controller operation keeps the counter non-negative. -/
theorem runOp_count_nonneg (op : CtrlOp) (c : Ctrl) (m : Mgr)
    (h : 0 ≤ c.count) : 0 ≤ (runOp op c m).1.count := by
  cases op with
  | oset cnt rep tol =>
      cases cnt with
      | num n =>
          simp only [runOp, ControlHelper.set]
          by_cases hn : 0 < n <;> by_cases ht : tol ≠ JSVal.undefined <;>
            simp [hn, ht] <;> omega
      | null => exact h
      | undefined => exact h
      | bool b => exact h
      | str s => exact h
      | arr xs => exact h
      | ctrlObj => exact h
  | oinc v =>
      cases v with
      | num k =>
          simp only [runOp, ControlHelper.inc]
          by_cases hk : k ≤ 0 <;> simp [hk] <;> omega
      | null => simp only [runOp, ControlHelper.inc]; omega
      | undefined => simp only [runOp, ControlHelper.inc]; omega
      | bool b => simp only [runOp, ControlHelper.inc]; omega
      | str s => simp only [runOp, ControlHelper.inc]; omega
      | arr xs => simp only [runOp, ControlHelper.inc]; omega
      | ctrlObj => simp only [runOp, ControlHelper.inc]; omega
  | otick e r =>
      exact tickEv_count_nonneg e e r c m h
  | otickIdx i e r =>
      exact tickEv_count_nonneg i e r c m h
  | onext e r =>
      exact nextEv_count_nonneg e r c m h

/-- Claim C2: under intolerant mode, a tick carrying a truthy error forces the
counter to zero and immediately issues the advance request
`manager.next(undefined, undefined, baggage)`, even though the counter had not
yet reached zero on its own; any later tick on the now-exhausted controller is
a complete no-op: the state is returned unchanged (nothing stored) and no
advance is issued. -/
theorem c2_intolerant_shortcircuit (c : Ctrl) (m m2 : Mgr) (e r i2 e2 r2 : JSVal)
    (htol : c.tolerance = false) (hcnt : 0 < c.count) (herr : truthy e = true) :
    (ControlHelper.tick2Ev e r c m).1.count = 0 ∧
    (ControlHelper.tick2Ev e r c m).2.2 = [(JSVal.undefined, JSVal.undefined, c.baggage)] ∧
    ControlHelper.tickEv i2 e2 r2 (ControlHelper.tick2Ev e r c m).1 m2 =
      ((ControlHelper.tick2Ev e r c m).1, m2, []) := by
  obtain ⟨cnt, tol, bag, rc⟩ := c
  cases htol
  have h1 : ControlHelper.tick2Ev e r ⟨cnt, false, bag, rc⟩ m =
      (⟨0, false, bag, rc⟩, SerialManager.store e r e m,
       [(JSVal.undefined, JSVal.undefined, bag)]) := by
    simp only [ControlHelper.tick2Ev, ControlHelper.tickEv, ControlHelper.nextEv]
    rw [if_pos hcnt]
    simp only [herr, Bool.not_false, Bool.true_and,
      show truthy JSVal.undefined = false from rfl, Bool.and_false]
    simp
  rw [h1]
  refine ⟨rfl, rfl, ?_⟩
  simp [ControlHelper.tickEv]

/-- Witness for C2 at a concrete input. -/
theorem c2_intolerant_shortcircuit_witness :
    (ControlHelper.tick2Ev (.str "e") (.str "r") ctrl2 mgr0).1.count = 0 ∧
    (ControlHelper.tick2Ev (.str "e") (.str "r") ctrl2 mgr0).2.2 =
      [(JSVal.undefined, JSVal.undefined, ctrl2.baggage)] ∧
    ControlHelper.tickEv .undefined (.str "e2") (.str "r2")
        (ControlHelper.tick2Ev (.str "e") (.str "r") ctrl2 mgr0).1 mgr0 =
      ((ControlHelper.tick2Ev (.str "e") (.str "r") ctrl2 mgr0).1, mgr0, []) :=
  c2_intolerant_shortcircuit ctrl2 mgr0 mgr0 (.str "e") (.str "r") .undefined
    (.str "e2") (.str "r2") rfl (by decide) (by decide)

/-- Claim C3: the counter never becomes negative under any sequence of
controller operations, and a tick on a controller whose counter is already
zero is a no-op — nothing is stored and no advance is issued — so ticking more
than the armed count has no effect beyond the exhausting tick. -/
theorem c3_counter_never_negative (ops : List CtrlOp) (c : Ctrl) (m m2 : Mgr)
    (i2 e2 r2 : JSVal) (h : 0 ≤ c.count) :
    0 ≤ (runOps ops c m).1.count ∧
    (c.count = 0 → ControlHelper.tickEv i2 e2 r2 c m2 = (c, m2, [])) := by
  constructor
  · induction ops generalizing c m with
    | nil => simpa [runOps] using h
    | cons op ops ih =>
        simp only [runOps]
        exact ih _ _ (runOp_count_nonneg op c m h)
  · intro h0
    simp [ControlHelper.tickEv, h0]

/-- Witness for C3 at a concrete input. -/
theorem c3_counter_never_negative_witness :
    0 ≤ (runOps [.oset (.num 2) .undefined .undefined, .otick .null (.str "a"),
                 .otick .null (.str "b"), .otick .null (.str "c")] ctrl0 mgr0).1.count ∧
    (ctrl0.count = 0 →
      ControlHelper.tickEv .undefined (.str "e") (.str "r") ctrl0 mgr0 = (ctrl0, mgr0, [])) :=
  c3_counter_never_negative _ ctrl0 mgr0 mgr0 .undefined (.str "e") (.str "r") (by decide)

/-- Under tolerant mode, one tick with a positive counter decrements by one,
stores the completion, and advances exactly when the counter reached zero. -/
theorem tick2Ev_tolerant (e r : JSVal) (cnt : Int) (bag : JSVal) (rc : Int)
    (m : Mgr) (hpos : 0 < cnt) :
    ControlHelper.tick2Ev e r ⟨cnt, true, bag, rc⟩ m =
      (⟨cnt - 1, true, bag, rc⟩, SerialManager.store e r e m,
       if cnt - 1 = 0 then [(JSVal.undefined, JSVal.undefined, bag)] else []) := by
  simp only [ControlHelper.tick2Ev, ControlHelper.tickEv, ControlHelper.nextEv]
  rw [if_pos hpos]
  simp only [Bool.not_true, Bool.false_and, Bool.false_eq_true, if_false]
  split <;> rfl

/-- Tolerant runs of tick sequences: counter arithmetic and the advance
moment, by induction on the tick sequence. -/
theorem runTicks_tolerant (ps : List (JSVal × JSVal)) :
    ∀ (cnt : Int) (bag : JSVal) (rc : Int) (m : Mgr),
    (ps.length : Int) ≤ cnt → 0 < cnt →
    (runTicks ps ⟨cnt, true, bag, rc⟩ m).1.count = cnt - ps.length ∧
    (runTicks ps ⟨cnt, true, bag, rc⟩ m).2.2 =
      (if (ps.length : Int) = cnt then [(JSVal.undefined, JSVal.undefined, bag)]
       else []) := by
  induction ps with
  | nil =>
      intro cnt bag rc m hle hpos
      refine ⟨by simp [runTicks], ?_⟩
      simp only [runTicks, List.length_nil, Nat.cast_zero]
      rw [if_neg (by omega)]
  | cons p ps ih =>
      obtain ⟨e, r⟩ := p
      intro cnt bag rc m hle hpos
      simp only [runTicks, List.length_cons] at hle ⊢
      rw [tick2Ev_tolerant e r cnt bag rc m hpos]
      by_cases hone : cnt = 1
      · subst hone
        have hps : ps = [] := by
          have h0 : ps.length = 0 := by push_cast at hle; omega
          exact List.length_eq_zero.mp h0
        subst hps
        simp [runTicks]
      · have h2 := ih (cnt - 1) bag rc (SerialManager.store e r e m)
          (by push_cast at hle ⊢; omega) (by omega)
        rw [if_neg (by omega)]
        refine ⟨?_, ?_⟩
        · simp only []
          rw [h2.1]
          push_cast
          ring
        · simp only [List.nil_append]
          rw [h2.2]
          by_cases he : (ps.length : Int) = cnt - 1
          · rw [if_pos he, if_pos (by push_cast; omega)]
          · rw [if_neg he, if_neg (by push_cast; omega)]

/-- Claim C7: under tolerant mode an erroring tick does not short-circuit: for
any sequence of at most `count` ticks, each carrying an arbitrary error, the
counter decreases by exactly the number of ticks and the advance request is
issued only when the tick count equals the armed count — no advance happens
while the counter is still positive. -/
theorem c7_tolerant_no_shortcircuit (ps : List (JSVal × JSVal)) (c : Ctrl) (m : Mgr)
    (htol : c.tolerance = true) (hle : (ps.length : Int) ≤ c.count)
    (hpos : 0 < c.count) :
    (runTicks ps c m).1.count = c.count - ps.length ∧
    (runTicks ps c m).2.2 =
      (if (ps.length : Int) = c.count then [(JSVal.undefined, JSVal.undefined, c.baggage)]
       else []) := by
  obtain ⟨cnt, tol, bag, rc⟩ := c
  cases htol
  exact runTicks_tolerant ps cnt bag rc m hle hpos

/-- Recording the immediate arguments touches only the buffers. -/
@[simp] theorem pushArgs_repeatNext (e r : JSVal) (m : Mgr) :
    (SerialManager.pushArgs e r m).repeatNext = m.repeatNext := by
  unfold SerialManager.pushArgs; split <;> rfl

@[simp] theorem pushArgs_tolerance (e r : JSVal) (m : Mgr) :
    (SerialManager.pushArgs e r m).tolerance = m.tolerance := by
  unfold SerialManager.pushArgs; split <;> rfl

@[simp] theorem pushArgs_currentFunc (e r : JSVal) (m : Mgr) :
    (SerialManager.pushArgs e r m).currentFunc = m.currentFunc := by
  unfold SerialManager.pushArgs; split <;> rfl

@[simp] theorem pushArgs_callbacks (e r : JSVal) (m : Mgr) :
    (SerialManager.pushArgs e r m).callbacks = m.callbacks := by
  unfold SerialManager.pushArgs; split <;> rfl

@[simp] theorem pushArgs_lastArgs (e r : JSVal) (m : Mgr) :
    (SerialManager.pushArgs e r m).lastArgs = m.lastArgs := by
  unfold SerialManager.pushArgs; split <;> rfl

@[simp] theorem pushArgs_repeatCount (e r : JSVal) (m : Mgr) :
    (SerialManager.pushArgs e r m).repeatCount = m.repeatCount := by
  unfold SerialManager.pushArgs; split <;> rfl

/-- A completion advance `next(undefined, undefined)` records nothing. -/
@[simp] theorem pushArgs_undef (m : Mgr) :
    SerialManager.pushArgs .undefined .undefined m = m := by
  simp [SerialManager.pushArgs]

/-- With no repeat requested, the decision of `SerialManager.next` is the
advance branch: step the index, deliver the compacted errors and the full
result buffer, and reset the buffers and the repeat counter. -/
theorem nextStep_advance (e r : JSVal) (m : Mgr) (hrep : m.repeatNext = false) :
    SerialManager.nextStep e r m =
      (⟨m.callbacks, m.currentFunc + 1, false, 0, [], [], m.tolerance,
        m.lastArgs, m.delivered⟩,
       compact ((SerialManager.pushArgs e r m).errors),
       .arr ((SerialManager.pushArgs e r m).results)) := by
  unfold SerialManager.nextStep SerialManager.pushArgs
  by_cases hpush : e ≠ JSVal.undefined ∨ r ≠ JSVal.undefined
  · rw [if_pos hpush]
    simp [hrep]
  · rw [if_neg hpush]
    simp [hrep]

/-- With a repeat requested and either tolerance on or no truthy error
aggregated, the decision of `SerialManager.next` is the repeat branch: keep
the index and the buffers, bump the repeat counter, clear the repeat flag, and
deliver the previously dispatched arguments. -/
theorem nextStep_repeat (e r : JSVal) (m : Mgr) (hrep : m.repeatNext = true)
    (hok : m.tolerance = true ∨
           truthy (compact ((SerialManager.pushArgs e r m).errors)) = false) :
    SerialManager.nextStep e r m =
      (⟨m.callbacks, m.currentFunc, false, m.repeatCount + 1,
        (SerialManager.pushArgs e r m).errors,
        (SerialManager.pushArgs e r m).results, m.tolerance,
        m.lastArgs, m.delivered⟩,
       jsIdx m.lastArgs 0, jsIdx m.lastArgs 1) := by
  have hcond : ((SerialManager.pushArgs e r m).repeatNext &&
      ((SerialManager.pushArgs e r m).tolerance ||
        (!(SerialManager.pushArgs e r m).tolerance &&
          !truthy (compact (SerialManager.pushArgs e r m).errors)))) = true := by
    rcases hok with h | h <;> simp [hrep, h]
  unfold SerialManager.nextStep at hcond ⊢
  unfold SerialManager.pushArgs at hcond ⊢
  by_cases hpush : e ≠ JSVal.undefined ∨ r ≠ JSVal.undefined
  · rw [if_pos hpush] at hcond ⊢
    rw [if_pos hcond]
  · rw [if_neg hpush] at hcond ⊢
    rw [if_pos hcond]

/-- Claim C4: when the repeat flag is set and the fan-out completes (the
completion advance carries `(undefined, undefined)`) with tolerance on or no
truthy error aggregated, the sequencer keeps the current index, delivers
exactly the previously dispatched arguments (`lastArgs`), bumps the repeat
count by exactly one, and clears the repeat flag, so that the following
advance decision steps the index normally.  The concrete run `c4run` shows the
repeated task being invoked again with the identical payload it received on
entry (not the fan-out's recordings) and repeat count 1, then advancing. -/
theorem c4_repeat_reinvokes_same_task (m : Mgr) (e2 r2 : JSVal)
    (hrep : m.repeatNext = true)
    (hok : m.tolerance = true ∨ truthy (compact m.errors) = false) :
    (SerialManager.nextStep .undefined .undefined m).1.currentFunc = m.currentFunc ∧
    (SerialManager.nextStep .undefined .undefined m).2.1 = jsIdx m.lastArgs 0 ∧
    (SerialManager.nextStep .undefined .undefined m).2.2 = jsIdx m.lastArgs 1 ∧
    (SerialManager.nextStep .undefined .undefined m).1.repeatCount = m.repeatCount + 1 ∧
    (SerialManager.nextStep .undefined .undefined m).1.repeatNext = false ∧
    (SerialManager.nextStep e2 r2
        (SerialManager.nextStep .undefined .undefined m).1).1.currentFunc =
      m.currentFunc + 1 ∧
    c4run.2 =
      [Ev.invoke 0 .null (.arr [.str "seed"]) .undefined 0,
       Ev.invoke 0 .null (.arr [.str "seed"]) .null 1,
       Ev.done .null (.arr [.str "a", .str "b", .str "c"]) .null] := by
  have h1 := nextStep_repeat .undefined .undefined m hrep (by simpa using hok)
  rw [h1]
  rw [nextStep_advance e2 r2 _ rfl]
  refine ⟨rfl, rfl, rfl, rfl, rfl, rfl, by decide⟩

/-- Witness for C4 at a concrete input. -/
theorem c4_repeat_reinvokes_same_task_witness :
    (SerialManager.nextStep .undefined .undefined
        { mgr0 with repeatNext := true }).1.currentFunc = mgr0.currentFunc ∧
    (SerialManager.nextStep .undefined .undefined
        { mgr0 with repeatNext := true }).2.1 = jsIdx mgr0.lastArgs 0 ∧
    (SerialManager.nextStep .undefined .undefined
        { mgr0 with repeatNext := true }).2.2 = jsIdx mgr0.lastArgs 1 ∧
    (SerialManager.nextStep .undefined .undefined
        { mgr0 with repeatNext := true }).1.repeatCount = mgr0.repeatCount + 1 ∧
    (SerialManager.nextStep .undefined .undefined
        { mgr0 with repeatNext := true }).1.repeatNext = false ∧
    (SerialManager.nextStep .null (.str "v")
        (SerialManager.nextStep .undefined .undefined
          { mgr0 with repeatNext := true }).1).1.currentFunc =
      mgr0.currentFunc + 1 ∧
    c4run.2 =
      [Ev.invoke 0 .null (.arr [.str "seed"]) .undefined 0,
       Ev.invoke 0 .null (.arr [.str "seed"]) .null 1,
       Ev.done .null (.arr [.str "a", .str "b", .str "c"]) .null] :=
  c4_repeat_reinvokes_same_task { mgr0 with repeatNext := true } .null (.str "v")
    rfl (Or.inr (by decide))

/-- Claim C10: the repeat branch does not clear the pending buffers — every
entry recorded up to and including the repeat-triggering advance stays
buffered — while any advance from a state with no repeat requested delivers
the whole current buffer (retained entries together with the ones recorded
afterwards) and only then resets the buffers.  The concrete run `c10run`
shows the two entries recorded before the repeat surviving into the payload
of the eventual advance together with the entry recorded after it. -/
theorem c10_repeat_keeps_buffers (m m2 : Mgr) (e r e2 r2 : JSVal)
    (hrep : m.repeatNext = true)
    (hok : m.tolerance = true ∨
           truthy (compact ((SerialManager.pushArgs e r m).errors)) = false)
    (hadv : m2.repeatNext = false) :
    (SerialManager.nextStep e r m).1.errors = (SerialManager.pushArgs e r m).errors ∧
    (SerialManager.nextStep e r m).1.results = (SerialManager.pushArgs e r m).results ∧
    (SerialManager.nextStep e2 r2 m2).2.1 =
      compact ((SerialManager.pushArgs e2 r2 m2).errors) ∧
    (SerialManager.nextStep e2 r2 m2).2.2 =
      .arr ((SerialManager.pushArgs e2 r2 m2).results) ∧
    (SerialManager.nextStep e2 r2 m2).1.errors = [] ∧
    (SerialManager.nextStep e2 r2 m2).1.results = [] ∧
    c10run.2 =
      [Ev.invoke 0 .null (.arr [.str "seed"]) .undefined 0,
       Ev.invoke 0 .null (.arr [.str "seed"]) .null 1,
       Ev.done .null (.arr [.str "x", .str "y", .str "z"]) .null] := by
  rw [nextStep_repeat e r m hrep hok, nextStep_advance e2 r2 m2 hadv]
  exact ⟨rfl, rfl, rfl, rfl, rfl, rfl, by decide⟩

/-- Witness for C10 at a concrete input. -/
theorem c10_repeat_keeps_buffers_witness :
    (SerialManager.nextStep .null (.str "a")
        { mgr0 with repeatNext := true }).1.errors =
      (SerialManager.pushArgs .null (.str "a")
        { mgr0 with repeatNext := true }).errors ∧
    (SerialManager.nextStep .null (.str "a")
        { mgr0 with repeatNext := true }).1.results =
      (SerialManager.pushArgs .null (.str "a")
        { mgr0 with repeatNext := true }).results ∧
    (SerialManager.nextStep .null (.str "b") mgr0).2.1 =
      compact ((SerialManager.pushArgs .null (.str "b") mgr0).errors) ∧
    (SerialManager.nextStep .null (.str "b") mgr0).2.2 =
      .arr ((SerialManager.pushArgs .null (.str "b") mgr0).results) ∧
    (SerialManager.nextStep .null (.str "b") mgr0).1.errors = [] ∧
    (SerialManager.nextStep .null (.str "b") mgr0).1.results = [] ∧
    c10run.2 =
      [Ev.invoke 0 .null (.arr [.str "seed"]) .undefined 0,
       Ev.invoke 0 .null (.arr [.str "seed"]) .null 1,
       Ev.done .null (.arr [.str "x", .str "y", .str "z"]) .null] :=
  c10_repeat_keeps_buffers { mgr0 with repeatNext := true } mgr0 .null (.str "a")
    .null (.str "b") rfl (Or.inr (by decide)) rfl

/-- Witness for C7 at a concrete input. -/
theorem c7_tolerant_no_shortcircuit_witness :
    (runTicks [(.str "e1", .str "r1"), (.null, .str "r2")]
        ⟨2, true, .null, 0⟩ mgr0).1.count = (⟨2, true, .null, 0⟩ : Ctrl).count - 2 ∧
    (runTicks [(.str "e1", .str "r1"), (.null, .str "r2")]
        ⟨2, true, .null, 0⟩ mgr0).2.2 =
      (if ((2 : Nat) : Int) = (⟨2, true, .null, 0⟩ : Ctrl).count
       then [(JSVal.undefined, JSVal.undefined, (⟨2, true, .null, 0⟩ : Ctrl).baggage)]
       else []) :=
  c7_tolerant_no_shortcircuit [(.str "e1", .str "r1"), (.null, .str "r2")]
    ⟨2, true, .null, 0⟩ mgr0 rfl (by decide) (by decide)

/-- A truthy value is neither `undefined` nor `null`. -/
theorem truthy_not_nullish (x : JSVal) (h : truthy x = true) :
    x ≠ JSVal.undefined ∧ x ≠ JSVal.null := by
  cases x <;> simp_all [truthy]

/-- Counterexample to claim C8: `set(2, true, true)` arms the counter, sets
the controller's local tolerance and forwards the repeat flag, but the owning
sequencer's tolerance is NOT configured (it stays `false`), because line 191
deletes the tolerance field from the config before `this.manager.set(config)`;
had the tolerance argument been forwarded to the sequencer's configure, the
sequencer's tolerance would have become `true` (second conjunct). -/
theorem c8_counterexample :
    (ControlHelper.set (.num 2) (.bool true) (.bool true) ctrl0 mgr0).map
        (fun p => (p.1.count, p.1.tolerance, p.2.repeatNext, p.2.tolerance)) =
      some (2, true, true, false) ∧
    (SerialManager.set (.bool true) (.bool true) mgr0).tolerance = true :=
  ⟨rfl, rfl⟩

/-- Claim C8 as amended: `set(count, repeat, tolerance)` with a numeric count
arms the counter only when the count is positive, updates the controller's
local tolerance when a tolerance argument is given, and forwards only the
repeat flag to the owning sequencer (the sequencer's tolerance is never
touched, since the tolerance field is deleted before forwarding); a
non-numeric, non-nullish count changes nothing. -/
theorem c8_set_semantics (c : Ctrl) (m : Mgr) (n : Int) (rep tol cnt : JSVal)
    (h1 : cnt ≠ .null) (h2 : cnt ≠ .undefined) (h3 : ∀ k : Int, cnt ≠ .num k) :
    ControlHelper.set (.num n) rep tol c m =
      some (⟨(if 0 < n then n else c.count),
             (if tol ≠ JSVal.undefined then truthy tol else c.tolerance),
             c.baggage, c.repeatCount⟩,
            ⟨m.callbacks, m.currentFunc,
             (match rep with | .bool b => b | _ => m.repeatNext),
             m.repeatCount, m.errors, m.results, m.tolerance, m.lastArgs,
             m.delivered⟩) ∧
    ControlHelper.set cnt rep tol c m = some (c, m) := by
  constructor
  · unfold ControlHelper.set SerialManager.set
    by_cases hn : 0 < n <;> by_cases htl : tol ≠ JSVal.undefined <;>
      cases rep <;> simp [hn, htl]
  · cases cnt with
    | null => exact absurd rfl h1
    | undefined => exact absurd rfl h2
    | num k => exact absurd rfl (h3 k)
    | bool b => rfl
    | str s => rfl
    | arr xs => rfl
    | ctrlObj => rfl

/-- Witness for C8's amended statement at a concrete input. -/
theorem c8_set_semantics_witness :
    ControlHelper.set (.num 2) (.bool true) (.bool false) ctrl0 mgr0 =
      some (⟨(if (0 : Int) < 2 then 2 else ctrl0.count),
             (if JSVal.bool false ≠ JSVal.undefined then truthy (.bool false)
              else ctrl0.tolerance),
             ctrl0.baggage, ctrl0.repeatCount⟩,
            ⟨mgr0.callbacks, mgr0.currentFunc, true, mgr0.repeatCount,
             mgr0.errors, mgr0.results, mgr0.tolerance, mgr0.lastArgs,
             mgr0.delivered⟩) ∧
    ControlHelper.set (.str "cfg") (.bool true) (.bool false) ctrl0 mgr0 =
      some (ctrl0, mgr0) :=
  c8_set_semantics ctrl0 mgr0 2 (.bool true) (.bool false) (.str "cfg")
    (by decide) (by decide) (fun k h => JSVal.noConfusion h)

/-- Counterexample to claim C5: in the claim's own example — count 2,
intolerant mode, ticks `(null, "r1")` then `(err, "r2")` — the erroring tick
short-circuits (exactly one advance request is issued), but the error
delivered to the next task is the raw error array `[null, err]`, not the
unwrapped `err`: the second variant unwraps only when the FIRST error slot is
truthy, and here the first slot is `null`. -/
theorem c5_counterexample :
    c5args =
      some [.arr [.null, .str "err"], .arr [.str "r1", .str "r2"], .ctrlObj] ∧
    c5ticks.2.2 = [(JSVal.undefined, JSVal.undefined, JSVal.null)] ∧
    JSVal.arr [.null, .str "err"] ≠ .str "err" :=
  ⟨rfl, rfl, by decide⟩

/-- Claim C5 as amended: under intolerant mode, when the aggregated error is a
(non-empty) error array, the second source variant delivers the unwrapped
first slot only when that first slot is truthy; otherwise the raw error array
is delivered unchanged — in particular in the `(null,"r1"), (err,"r2")`
example the next task receives the array, not the unwrapped error. -/
theorem c5_unwrap_first_slot (m : Mgr) (e r : JSVal) (l : List JSVal) (t : Task)
    (htol : m.tolerance = false) (hrep : m.repeatNext = false)
    (hc : compact ((SerialManager.pushArgs e r m).errors) = .arr l)
    (ht : taskAt m.callbacks (m.currentFunc + 1) = some t) :
    (SerialManager.nextV2 e r m).2 =
      some [(if truthy (l.getD 0 .undefined) = true then l.getD 0 .undefined
             else .arr l),
            .arr ((SerialManager.pushArgs e r m).results), .ctrlObj] := by
  unfold SerialManager.nextV2
  rw [nextStep_advance e r m hrep, hc]
  simp only [ht, htol, Bool.not_false, Bool.true_and]
  rw [show truthy (JSVal.arr l) = true from rfl]
  simp only [Bool.true_and, jsGet0]
  by_cases hg : truthy (l.getD 0 .undefined) = true
  · rw [if_pos hg]
    rw [if_neg ?_]
    intro hcond
    rcases (truthy_not_nullish _ hg) with ⟨hu, hn⟩
    rcases hcond.2.1 with h | h
    · exact hu h
    · exact hn h
  · rw [if_neg hg]
    rw [if_neg ?_]
    intro hcond
    rcases hcond.2.1 with h | h <;> exact JSVal.noConfusion h

/-- Witness for C5's amended statement at a concrete input. -/
theorem c5_unwrap_first_slot_witness :
    (SerialManager.nextV2 .undefined .undefined c5ticks.2.1).2 =
      some [(if truthy ([JSVal.null, .str "err"].getD 0 .undefined) = true
             then [JSVal.null, .str "err"].getD 0 .undefined
             else .arr [JSVal.null, .str "err"]),
            .arr ((SerialManager.pushArgs .undefined .undefined c5ticks.2.1).results),
            .ctrlObj] :=
  c5_unwrap_first_slot c5ticks.2.1 .undefined .undefined [JSVal.null, .str "err"]
    (Task.user [] []) rfl rfl rfl rfl

/-- Recording a single pair on clean buffers aggregates to `deliveredOf`
(error component). -/
theorem compact_push_errors (e r : JSVal) (m : Mgr) (he : m.errors = []) :
    compact ((SerialManager.pushArgs e r m).errors) = (deliveredOf e r).1 := by
  unfold SerialManager.pushArgs deliveredOf
  by_cases h : e = JSVal.undefined ∧ r = JSVal.undefined
  · rw [if_neg (by simp [h.1, h.2]), if_pos h]
    simp [he, compact]
  · rw [if_pos (by tauto), if_neg h]
    simp [he]

/-- Recording a single pair on clean buffers aggregates to `deliveredOf`
(result component). -/
theorem push_results (e r : JSVal) (m : Mgr) (hr : m.results = []) :
    JSVal.arr ((SerialManager.pushArgs e r m).results) = (deliveredOf e r).2 := by
  unfold SerialManager.pushArgs deliveredOf
  by_cases h : e = JSVal.undefined ∧ r = JSVal.undefined
  · rw [if_neg (by simp [h.1, h.2]), if_pos h]
    simp [hr]
  · rw [if_pos (by tauto), if_neg h]
    simp [hr]

/-- Looking up the task right after a prefix of already-executed tasks. -/
theorem taskAt_append (pre rest : List Task) :
    taskAt (pre ++ rest) (pre.length : Int) = rest.head? := by
  unfold taskAt
  rw [if_pos (Int.natCast_nonneg _)]
  cases rest with
  | nil => simp
  | cons x xs => simp [List.getElem?_append_right (le_refl pre.length)]

/-- The controller's `next` on a zero counter always forwards to the
sequencer, whatever the error argument. -/
theorem nextR_zero (recur : JSVal → JSVal → JSVal → Mgr → Mgr × List Ev)
    (e r : JSVal) (tol : Bool) (bag : JSVal) (rc : Int) (m : Mgr) :
    ControlHelper.nextR recur e r ⟨0, tol, bag, rc⟩ m =
      (⟨0, tol, bag, rc⟩, (recur e r bag m).1, (recur e r bag m).2) := by
  unfold ControlHelper.nextR
  split <;> rfl

/-- One unfolding of the fuel-indexed interpreter. -/
theorem run_succ (fuel : Nat) (e r b : JSVal) (m : Mgr) :
    SerialManager.run (fuel + 1) e r b m =
      SerialManager.nextBody (SerialManager.run fuel) e r b m := rfl

/-- Straight-line induction: from a state with clean buffers, no repeat
pending, and the remaining callbacks all immediate-advance tasks followed by
the completion callback, the interpreter produces exactly the specification
trace `c1log`. -/
theorem run_straightline (ps : List (JSVal × JSVal)) :
    ∀ (pre : List Task) (e r b : JSVal) (m : Mgr),
    m.callbacks = pre ++ ps.map mkNextTask ++ [Task.finalCb] →
    m.currentFunc = (pre.length : Int) - 1 →
    m.repeatNext = false →
    m.errors = [] → m.results = [] →
    (SerialManager.run (ps.length + 1) e r b m).2 = c1log pre.length e r b ps := by
  induction ps with
  | nil =>
      intro pre e r b m hcb hcf hrep he hr
      simp only [List.map_nil, List.append_nil] at hcb
      simp only [List.length_nil]
      rw [run_succ]
      unfold SerialManager.nextBody
      rw [nextStep_advance e r m hrep]
      simp only [hcb, hcf]
      rw [show ((pre.length : Int) - 1 + 1) = (pre.length : Int) by ring]
      rw [taskAt_append pre [Task.finalCb]]
      simp only [List.head?]
      rw [compact_push_errors e r m he, push_results e r m hr]
      simp [c1log]
  | cons q ps ih =>
      intro pre e r b m hcb hcf hrep he hr
      obtain ⟨qe, qr⟩ := q
      simp only [List.map_cons, List.cons_append, List.append_assoc] at hcb
      simp only [List.length_cons]
      rw [run_succ]
      unfold SerialManager.nextBody
      rw [nextStep_advance e r m hrep]
      simp only [hcb, hcf]
      rw [show ((pre.length : Int) - 1 + 1) = (pre.length : Int) by ring]
      rw [taskAt_append pre (mkNextTask (qe, qr) ::
            (List.map mkNextTask ps ++ [Task.finalCb]))]
      simp only [List.head?, mkNextTask]
      rw [compact_push_errors e r m he, push_results e r m hr]
      simp only [runCmds]
      rw [nextR_zero]
      simp only [runCmds]
      rw [Int.toNat_natCast]
      rw [List.append_nil]
      rw [ih (pre ++ [mkNextTask (qe, qr)]) qe qr .null _
            (by simp [mkNextTask]) (by simp) rfl rfl rfl]
      simp only [List.length_append, List.length_singleton]
      simp [c1log]

/-- Claim C1: for every list of declared tasks each of which immediately calls
the controller's no-fan-out advance `next(e_i, r_i)` without arming a counter,
running `execute` invokes the tasks strictly in declaration order exactly once
each with repeat count 0, and the last task's advance call invokes the
registered completion callback with the aggregation of exactly that call's
error/result arguments: the full event trace equals the straight-line
specification trace `c1log 0`. -/
theorem c1_straightline_order (ps : List (JSVal × JSVal)) (e r b : JSVal) :
    (SerialManager.executeRun (ps.length + 1) (ps.map mkNextTask)
        .undefined .undefined e r b).2 = c1log 0 e r b ps := by
  unfold SerialManager.executeRun
  have h := run_straightline ps [] e r b
      (SerialManager.mk0 (ps.map mkNextTask ++ [Task.finalCb]) .undefined .undefined)
      (by simp [SerialManager.mk0, SerialManager.set, SerialManager.init])
      (by simp [SerialManager.mk0, SerialManager.set, SerialManager.init])
      (by simp [SerialManager.mk0, SerialManager.set, SerialManager.init])
      (by simp [SerialManager.mk0, SerialManager.set, SerialManager.init])
      (by simp [SerialManager.mk0, SerialManager.set, SerialManager.init])
  simpa using h

/-- Counterexample to claim C6: tasks `[A, B]` where `A` calls the no-fan-out
advance twice and `B` performs no controller operation at all.  After `A`'s
first `next` the sequencer has moved on to `B`, so `A`'s controller is stale;
yet `A`'s second `next` (counter still zero) advances the sequencer again —
the completion callback fires (third event) although `B` never requested an
advance.  A stale controller CAN advance the sequencer. -/
theorem c6_counterexample :
    c6run.2 =
      [Ev.invoke 0 .null (.arr [.str "seed"]) .undefined 0,
       Ev.invoke 1 .null (.arr [.str "x"]) .null 0,
       Ev.done .null (.arr [.str "y"]) .null] := by decide

/-- Claim C6 as amended: liveness of a controller is tracked only through its
counter.  A tick on an exhausted controller is completely inert (nothing
stored, no advance) — so a stale controller whose pending completions went
through tick cannot advance the sequencer — but `next` on a controller whose
counter is zero always issues an advance request to its owning sequencer,
stale or not. -/
theorem c6_stale_controller_semantics (c : Ctrl) (m m2 : Mgr)
    (i e r e2 r2 : JSVal) (h0 : c.count = 0) :
    ControlHelper.tickEv i e r c m = (c, m, []) ∧
    (ControlHelper.nextEv e2 r2 c m2).2.2 = [(e2, r2, c.baggage)] := by
  constructor
  · simp [ControlHelper.tickEv, h0]
  · simp only [ControlHelper.nextEv]
    by_cases hsc : (!c.tolerance && truthy e2) = true
    · rw [if_pos hsc]
      simp
    · rw [if_neg hsc, if_pos h0]

/-- Witness for C6's amended statement at a concrete input. -/
theorem c6_stale_controller_semantics_witness :
    ControlHelper.tickEv .undefined (.str "e") (.str "r") ctrl0 mgr0 =
      (ctrl0, mgr0, []) ∧
    (ControlHelper.nextEv .null (.str "v") ctrl0 mgr0).2.2 =
      [(JSVal.null, .str "v", ctrl0.baggage)] :=
  c6_stale_controller_semantics ctrl0 mgr0 mgr0 .undefined (.str "e") (.str "r")
    .null (.str "v") rfl

/-- Claim C9 (divergence of the code): a parent sequence whose single task is
a nested built sequence, the nested sequence completing with
`next(null, "x")`.  The nested completion closure fires exactly once (one
`pipe` event), but because its parameters `(errors, results, baggage)` are
positionally bound to the invocation argument list
`[controller, errs, res, baggage]` of src/flow.js line 135, what reaches the
parent is `setBaggage(res)` and `next(controller, errs)`: the parent records
the nested CONTROLLER OBJECT as the error and the nested error aggregate as
the result, and the parent's completion callback receives
`errors = [ctrlObj]`, `results = [null]`, `baggage = ["x"]` — not the nested
sequence's final error/result. -/
theorem c9_nested_delivery_bug :
    c9run.2 =
      [Ev.invoke 0 .null (.arr [.str "seed"]) .undefined 0,
       Ev.invoke 0 .null (.arr [.arr [.str "seed"]]) .undefined 0,
       Ev.pipe .ctrlObj .null (.arr [.str "x"]),
       Ev.done (.arr [.ctrlObj]) (.arr [.null]) (.arr [.str "x"])] := by decide

end Flowjs
